import Mathlib

/-!
Shallow embedding of the graphql-query-codegen Builder (src/src/lib.ts) and of
the text-layout helpers `wrap`/`join` (src/lib.ts), together with theorems
settling the frozen claims about the natural-language specification.

The embedding mirrors the TypeScript source: the graphql AST node shapes used
by the code are translated to inductive types (fields the code never reads,
such as aliases and directives, are omitted), JavaScript objects used as
ordered string-keyed maps become association lists with JS insertion-order
semantics, thrown `Error`s become `Except.error` with a structured error
constructor per throw site, and the mutable per-render context queue
(`#context.inputTypesToRender`) is threaded explicitly.  The render family is
given a fuel parameter (decremented on every call) because the TypeScript
recursion is not structural; `RenderError.outOfFuel` marks exhaustion and
appears in no real execution given enough fuel.
-/

set_option maxHeartbeats 1000000
set_option maxRecDepth 100000

namespace GQLCodegen

/-- The reserved typename pseudo-field (`TYPENAME_FIELD_NAME` in lib.ts). -/
def TYPENAME_FIELD_NAME : String := "__typename"

/- graphql `TypeNode`: a `NonNullTypeNode` wraps a named or list node, and the
grammar never double-wraps NonNull, so a type reference is a (possibly
NonNull-wrapped) inner node.  `TypeNode.plain` is a bare (nullable) node. -/
mutual

inductive InnerTypeNode where
| named (name : String)
| list (ofType : TypeNode)

inductive TypeNode where
| plain (inner : InnerTypeNode)
| nonNull (inner : InnerTypeNode)

end

/-- graphql `ValueNode`.  Numeric literals keep their source text, as in the
graphql AST; none of the embedded code inspects numeric values. -/
inductive ValueNode where
| variableRef (name : String)
| nullValue
| intValue (value : String)
| floatValue (value : String)
| stringValue (value : String)
| booleanValue (value : Bool)
| enumValue (value : String)
| listValue (values : List ValueNode)
| objectValue (fields : List (String × ValueNode))

/-- graphql `ArgumentNode`. -/
structure ArgumentNode where
  name : String
  value : ValueNode

/-- graphql `InputValueDefinitionNode` (a declared field argument or input
object field). -/
structure InputValueDefinitionNode where
  name : String
  type : TypeNode
  defaultValue : Option ValueNode

/-- graphql `VariableDefinitionNode` (`$name: Type = default`). -/
structure VariableDefinitionNode where
  varName : String
  type : TypeNode
  defaultValue : Option ValueNode

/-- graphql `FieldDefinitionNode` (a field declared on an object/interface
type).  `arguments` is an optional array in the AST. -/
structure FieldDefinitionNode where
  name : String
  arguments : Option (List InputValueDefinitionNode)
  type : TypeNode

/-- graphql `EnumValueDefinitionNode`. -/
structure EnumValueDefinitionNode where
  name : String

/-- graphql `TypeDefinitionNode`: the closed set of definition variants the
code dispatches on.  Optional field/value/member arrays stay `Option`, as in
the AST (the code distinguishes them with `?? []` / `?.length`). -/
inductive TypeDefinitionNode where
| scalarDef (name : String)
| objectDef (name : String) (fields : Option (List FieldDefinitionNode))
| interfaceDef (name : String) (fields : Option (List FieldDefinitionNode))
| unionDef (name : String) (types : Option (List String))
| enumDef (name : String) (values : Option (List EnumValueDefinitionNode))
| inputObjectDef (name : String) (fields : Option (List InputValueDefinitionNode))

/-- `def.name.value` of a type definition. -/
def TypeDefinitionNode.name : TypeDefinitionNode → String
| .scalarDef n => n
| .objectDef n _ => n
| .interfaceDef n _ => n
| .unionDef n _ => n
| .enumDef n _ => n
| .inputObjectDef n _ => n

/-- `def.kind` of a type definition, as the graphql `Kind` string. -/
def TypeDefinitionNode.kindStr : TypeDefinitionNode → String
| .scalarDef _ => "ScalarTypeDefinition"
| .objectDef _ _ => "ObjectTypeDefinition"
| .interfaceDef _ _ => "InterfaceTypeDefinition"
| .unionDef _ _ => "UnionTypeDefinition"
| .enumDef _ _ => "EnumTypeDefinition"
| .inputObjectDef _ _ => "InputObjectTypeDefinition"

/-- Whether a definition is an `ObjectTypeDefinition`. -/
def TypeDefinitionNode.isObjectDef : TypeDefinitionNode → Bool
| .objectDef _ _ => true
| _ => false

/-- Whether a definition is an `InputObjectTypeDefinition`. -/
def TypeDefinitionNode.isInputObjectDef : TypeDefinitionNode → Bool
| .inputObjectDef _ _ => true
| _ => false

/-- `value.kind` as the graphql `Kind` string (used in error messages). -/
def ValueNode.kindStr : ValueNode → String
| .variableRef _ => "Variable"
| .nullValue => "NullValue"
| .intValue _ => "IntValue"
| .floatValue _ => "FloatValue"
| .stringValue _ => "StringValue"
| .booleanValue _ => "BooleanValue"
| .enumValue _ => "EnumValue"
| .listValue _ => "ListValue"
| .objectValue _ => "ObjectValue"

/- graphql selection nodes: plain fields, inline fragments (whose type
condition the code reads with a non-null assertion) and named fragment
spreads (rejected by the code's `default:` branch). -/
mutual

inductive SelectionNode where
| field (f : FieldNode)
| inlineFragment (typeCondition : String) (selectionSet : SelectionSetNode)
| fragmentSpread (name : String)

inductive FieldNode where
| mk (name : String) (arguments : Option (List ArgumentNode))
    (selectionSet : Option SelectionSetNode)

inductive SelectionSetNode where
| mk (selections : List SelectionNode)

end

/-- `sel.name.value`. -/
def FieldNode.name : FieldNode → String
| .mk n _ _ => n

/-- `sel.arguments`. -/
def FieldNode.arguments : FieldNode → Option (List ArgumentNode)
| .mk _ a _ => a

/-- `sel.selectionSet`. -/
def FieldNode.selectionSet : FieldNode → Option SelectionSetNode
| .mk _ _ s => s

/-- `set.selections`. -/
def SelectionSetNode.selections : SelectionSetNode → List SelectionNode
| .mk sels => sels

/-- graphql `OperationTypeNode`. -/
inductive OperationTypeNode where
| query
| mutation
| subscription

/-- The operation kind's source string (used in error messages). -/
def OperationTypeNode.kindStr : OperationTypeNode → String
| .query => "query"
| .mutation => "mutation"
| .subscription => "subscription"

/-- graphql `OperationDefinitionNode`, restricted to the fields the code
reads. -/
structure OperationDefinitionNode where
  operation : OperationTypeNode
  name : Option String
  variableDefinitions : Option (List VariableDefinitionNode)
  selectionSet : SelectionSetNode

/-- The `sel` parameter of `#internalRenderSingleType`:
`graphql.FieldNode | graphql.InlineFragmentNode` (an absent selection is
`Option.none` around this). -/
inductive SelParam where
| fieldSel (f : FieldNode)
| fragSel (typeCondition : String) (selectionSet : SelectionSetNode)

/-- `sel.selectionSet`: optional on a field node, always present on an inline
fragment. -/
def SelParam.getSelectionSet : SelParam → Option SelectionSetNode
| .fieldSel f => f.selectionSet
| .fragSel _ s => some s

/-- `sel?.selectionSet` truthiness for an optional selection parameter. -/
def hasSelectionSet (sel : Option SelParam) : Bool :=
  match sel with
  | none => false
  | some p => p.getSelectionSet.isSome

/-- `sel?.selectionSet` itself (`undefined` flattened to `none`). -/
def getOptSelSet (sel : Option SelParam) : Option SelectionSetNode :=
  sel.bind SelParam.getSelectionSet

/-- `BuilderOptions` from lib.ts. -/
structure BuilderOptions where
  allowInvalidShape : Bool
  allowMissingFields : Bool
  allowMissingArguments : Bool
  allowUnknownTypes : Bool
  exportInputTypes : Bool
  fixedTypenameField : Bool
  allowAdditionalArguments : Bool

/-- The defaults applied by the `Builder` constructor. -/
def defaultOptions : BuilderOptions :=
  { allowInvalidShape := false
    allowMissingFields := false
    allowMissingArguments := false
    allowUnknownTypes := true
    exportInputTypes := false
    fixedTypenameField := true
    allowAdditionalArguments := true }

/- JavaScript objects used as string-keyed maps (`#allTypes`, `#scalars`,
`fieldArguments`, `variables`): association lists with JS semantics —
assignment keeps the first insertion position and overwrites the value,
lookup finds the (unique) entry, delete removes it, and key/value iteration
follows insertion order. -/

/-- `obj[key]`. -/
def jsGet {α : Type} (m : List (String × α)) (k : String) : Option α :=
  (m.find? (fun p => p.1 == k)).map (fun p => p.2)

/-- `obj[key] = v`. -/
def jsSet {α : Type} (m : List (String × α)) (k : String) (v : α) :
    List (String × α) :=
  if m.any (fun p => p.1 == k) then
    m.map (fun p => if p.1 == k then (k, v) else p)
  else
    m ++ [(k, v)]

/-- `delete obj[key]`. -/
def jsDelete {α : Type} (m : List (String × α)) (k : String) :
    List (String × α) :=
  m.filter (fun p => p.1 != k)

/-- `Object.fromEntries(entries)`. -/
def jsFromEntries {α : Type} (entries : List (String × α)) :
    List (String × α) :=
  entries.foldl (fun m p => jsSet m p.1 p.2) []

/-- JSON string escaping for one character (`JSON.stringify` on strings). -/
def jsonEscapeChar (c : Char) : String :=
  if c = '"' then "\\\""
  else if c = '\\' then "\\\\"
  else if c = '\n' then "\\n"
  else if c = '\r' then "\\r"
  else if c = '\t' then "\\t"
  else if c.toNat < 32 then
    "\\u00" ++ (Nat.toDigits 16 c.toNat).asString
  else String.singleton c

/-- `JSON.stringify` applied to a string. -/
def jsonStringify (s : String) : String :=
  "\"" ++ String.join (s.data.map jsonEscapeChar) ++ "\""

/-- `line.trimEnd()` (character-level, structurally recursive). -/
def trimEnd (s : String) : String :=
  ((s.data.reverse.dropWhile (fun c => c.isWhitespace)).reverse).asString

/-- `text.split('\n')` (character-level, structurally recursive): rows between
newline separators, including a trailing empty row after a final newline. -/
def splitOnNewline : List Char → List (List Char)
| [] => [[]]
| c :: rest =>
  match splitOnNewline rest with
  | row :: rows => if c = '\n' then [] :: row :: rows else (c :: row) :: rows
  | [] => [[]]

/-- The `join` text-layout helper (src/lib.ts): append a newline to every
line, split the whole text on newlines, trim each row's end, indent the
non-blank rows, and terminate every row with a newline. -/
def join (lines : List String) (indent : String) : String :=
  let raw := String.join (lines.map (fun x => x ++ "\n"))
  let rows := splitOnNewline raw.data
  String.join (rows.map (fun row =>
    let line := trimEnd row.asString
    (if line != "" then indent ++ line else "") ++ "\n"))

/-- The `wrap` text-layout helper (src/lib.ts): indent the joined lines by two
spaces and enclose them in braces, dropping one trailing newline. -/
def wrap (lines : List String) : String :=
  let inner := join lines "  "
  if inner = "" then "\x7b\x7d"
  else
    let inner :=
      if inner.data.getLast? = some '\n' then inner.data.dropLast.asString
      else inner
    "\x7b\n" ++ inner ++ "\x7d"

/-- `s.replace(/\s+/g, ' ')`: collapse every maximal whitespace run to one
space. -/
def collapseWs (s : String) : String :=
  match s.data with
  | [] => ""
  | c :: rest =>
    (collapseWsAux c rest).asString
where
  /-- One step: emit the character (a whitespace run only as its first
  character, turned into a space) and continue. -/
  collapseWsAux : Char → List Char → List Char
  | c, [] => if c.isWhitespace then [' '] else [c]
  | c, d :: rest =>
    if c.isWhitespace && d.isWhitespace then collapseWsAux d rest
    else (if c.isWhitespace then ' ' else c) :: collapseWsAux d rest

/-- `opName.substring(0, 1).toLowerCase() + opName.substring(1)`. -/
def lowerFirst (s : String) : String :=
  match s.data with
  | [] => ""
  | c :: rest => (c.toLower :: rest).asString

/-- One structured error per `throw` site of lib.ts (the code throws
`Error` objects with message strings; the constructors carry the dynamic
parts of those messages).  `jsTypeError` models a JavaScript runtime
`TypeError` raised by reading a property of `undefined`; `outOfFuel` is the
embedding's fuel-exhaustion marker and corresponds to no source behavior. -/
inductive RenderError where
| duplicateType (name : String)
| unsupportedOperation (op : String)
| unexpectedRootKind (key : String) (kind : String)
| unknownType (name : String)
| inputObjectAsSelection
| objectAsInputType
| emptyEnum (name : String)
| invalidScalarShape (path : String) (name : String)
| invalidObjectShape (path : String) (name : String)
| missingField (path : String)
| missingVariable (name : String) (path : String)
| listCompat (path : String) (providedKind : String)
| unexpectedArgument (path : String) (name : String)
| missingArguments (path : String) (names : List String)
| invalidUnionMember (kind : String)
| disjointUnion (expected : String) (actual : String)
| onlyPlainFields (kind : String)
| unnamedOperation (op : String)
| unknownInputType (name : String)
| nonInputObjectDep (name : String)
| jsTypeError (prop : String)
| outOfFuel

/-- The `Builder`'s registered model state: `#allTypes` (duplicate-free by
`addModelType`), `#scalars`, and the constructor-resolved options. -/
structure Builder where
  allTypes : List (String × TypeDefinitionNode)
  scalars : List (String × String)
  options : BuilderOptions

/-- The pre-seeded `#scalars` map. -/
def defaultScalars : List (String × String) :=
  [("String", "string"), ("Int", "number"), ("Float", "number"),
   ("Boolean", "boolean"), ("ID", "string")]

/-- A `Builder` with no registered types and default options. -/
def emptyBuilder : Builder :=
  { allTypes := [], scalars := defaultScalars, options := defaultOptions }

/-- `addScalar(name, tsType)`. -/
def Builder.addScalar (b : Builder) (name tsType : String) : Builder :=
  { b with scalars := jsSet b.scalars name tsType }

/-- `addModelType(def)`: throws on a duplicate name. -/
def Builder.addModelType (b : Builder) (d : TypeDefinitionNode) :
    Except RenderError Builder :=
  if (jsGet b.allTypes d.name).isSome then
    Except.error (.duplicateType d.name)
  else
    Except.ok { b with allTypes := jsSet b.allTypes d.name d }

/-- The render-context variable table: declared variable name to its
definition. -/
abbrev VarMap := List (String × VariableDefinitionNode)

/-- `unwrapNonNullType(t)` from lib.ts. -/
def unwrapNonNullType : TypeNode → InnerTypeNode
| .plain i => i
| .nonNull i => i

/-- `type.kind === NON_NULL_TYPE`. -/
def TypeNode.isNonNull : TypeNode → Bool
| .plain _ => false
| .nonNull _ => true

/- `#checkTypeCompat(req, value, path)`: structural compatibility of a
provided argument value against a declared type — a variable reference must
be declared, and a list requirement recurses into a provided list value. -/
mutual

def checkTypeCompat (vars : VarMap) (req : TypeNode) (value : ValueNode)
    (path : String) : Except RenderError Unit := do
  let requiredType := unwrapNonNullType req
  match value with
  | .variableRef name =>
    if (jsGet vars name).isNone then
      Except.error (.missingVariable name path)
    else pure ()
  | _ => pure ()
  match requiredType with
  | .list inner =>
    match value with
    | .listValue values => checkTypeCompatList vars inner values path
    | _ => Except.error (.listCompat path value.kindStr)
  | _ => pure ()

def checkTypeCompatList (vars : VarMap) (req : TypeNode)
    (values : List ValueNode) (path : String) : Except RenderError Unit := do
  match values with
  | [] => pure ()
  | v :: rest =>
    checkTypeCompat vars req v path
    checkTypeCompatList vars req rest path

end

/-- The consumption loop of `#checkFieldArguments`: for each provided
argument look it up among the declared parameters.  An undeclared argument
throws under `allowAdditionalArguments: false`; otherwise the code falls
through (there is no `continue`) and dereferences `req.type` on `undefined`,
a JavaScript `TypeError`.  A declared argument is compatibility-checked and
deleted from the working set. -/
def consumeArgs (b : Builder) (vars : VarMap)
    (fieldArguments : List (String × InputValueDefinitionNode))
    (args : List ArgumentNode) (path : String) :
    Except RenderError (List (String × InputValueDefinitionNode)) := do
  match args with
  | [] => pure fieldArguments
  | arg :: rest =>
    match jsGet fieldArguments arg.name with
    | none =>
      if !b.options.allowAdditionalArguments then
        Except.error (.unexpectedArgument path arg.name)
      else
        Except.error (.jsTypeError "type")
    | some reqArg => do
      checkTypeCompat vars reqArg.type arg.value (path ++ "." ++ arg.name)
      consumeArgs b vars (jsDelete fieldArguments arg.name) rest path

/-- `#checkFieldArguments(req, args, path)`. -/
def checkFieldArguments (b : Builder) (vars : VarMap)
    (req : Option (List InputValueDefinitionNode))
    (args : Option (List ArgumentNode)) (path : String) :
    Except RenderError Unit := do
  let fieldArguments :=
    jsFromEntries ((req.getD []).map (fun arg => (arg.name, arg)))
  let fieldArguments ← consumeArgs b vars fieldArguments (args.getD []) path
  let fieldArguments := fieldArguments.filter
    (fun p => p.2.defaultValue.isNone && p.2.type.isNonNull)
  let missingArguments := fieldArguments.map (fun p => p.1)
  if missingArguments.length != 0 && !b.options.allowMissingArguments then
    Except.error (.missingArguments path missingArguments)
  else pure ()

/-- The argument of `#renderSingleInputName`:
`graphql.InputValueDefinitionNode | graphql.VariableDefinitionNode`. -/
inductive InputValueLike where
| inputValue (d : InputValueDefinitionNode)
| variableDef (d : VariableDefinitionNode)

/-- `type.type`. -/
def InputValueLike.type : InputValueLike → TypeNode
| .inputValue d => d.type
| .variableDef d => d.type

/-- `type.defaultValue`. -/
def InputValueLike.defaultValue : InputValueLike → Option ValueNode
| .inputValue d => d.defaultValue
| .variableDef d => d.defaultValue

/-- The name picked by the kind branch of `#renderSingleInputName`
(`type.name.value` for an input value, `type.variable.name.value` for a
variable definition). -/
def InputValueLike.entryName : InputValueLike → String
| .inputValue d => d.name
| .variableDef d => d.varName

/-- Outcome of the named-type lookup prologue of
`#internalRenderSingleType` (the `resolvedUnknown:` labelled block): an early
return, a thrown error, or a definition to dispatch on. -/
inductive ResolveOutcome where
| done (s : String)
| err (e : RenderError)
| found (d : TypeDefinitionNode)

/-- The named-type lookup prologue of `#internalRenderSingleType`: a missing
name falls through to a registered scalar when no nested selection was
requested, errors under `allowUnknownTypes: false`, degrades to an unknown
marker without a selection, and otherwise synthesizes an empty object
definition. -/
def resolveNamed (b : Builder) (sel : Option SelParam) (name : String) :
    ResolveOutcome :=
  match jsGet b.allTypes name with
  | some d => .found d
  | none =>
    if !(hasSelectionSet sel) && (jsGet b.scalars name).isSome then
      .found (.scalarDef name)
    else if !b.options.allowUnknownTypes then
      .err (.unknownType name)
    else if !(hasSelectionSet sel) then
      .done ("/* can't find scalar type=" ++ jsonStringify name ++ " */ unknown")
    else
      .found (.objectDef name none)

/-- The `renderInvalidScalar` epilogue of `#internalRenderSingleType`
(selecting a composite type as if it were a scalar). -/
def renderInvalidScalarResult (b : Builder) (path name : String)
    (q : List String) : Except RenderError (String × List String) :=
  if !b.options.allowInvalidShape then
    Except.error (.invalidScalarShape path name)
  else
    Except.ok ("/* invalid shape, should be object type=" ++ name ++ " */ any", q)

/-- The union consistency loop of `renderMany`: compare every later member
result against the first; on the first mismatch fail (strict) or return the
fallback marker line (tolerant). -/
def unionCheckLine (allowUnknownTypes : Bool) (name check : String)
    (rest : List String) : Except RenderError String :=
  match rest with
  | [] => Except.ok (name ++ ": " ++ check ++ ";")
  | o :: rest' =>
    if o != check then
      if !allowUnknownTypes then Except.error (.disjointUnion check o)
      else Except.ok (name ++ ": /* inconsistent subtypes from union */ any;")
    else unionCheckLine allowUnknownTypes name check rest'

/-- `type?.fields` for the non-union branch of `renderMany`. -/
def TypeDefinitionNode.fieldsOf : TypeDefinitionNode →
    Option (List FieldDefinitionNode)
| .objectDef _ fs => fs
| .interfaceDef _ fs => fs
| _ => none

/-- Whether a selection is a plain field named `__typename`. -/
def isTypenameFieldSel : SelectionNode → Bool
| .field f => f.name == TYPENAME_FIELD_NAME
| _ => false

/-- `maybeCopyTypenameToInlineFragments(all)` from lib.ts: when the outer
selection requests `__typename` alongside at least one inline fragment, clone
the pseudo-field into each fragment that does not already select it. -/
def maybeCopyTypenameToInlineFragments (all : List SelectionNode) :
    List SelectionNode :=
  let typenameField := all.any isTypenameFieldSel
  let hasFragment := all.any (fun x =>
    match x with | .inlineFragment _ _ => true | _ => false)
  if !typenameField || !hasFragment then all
  else all.map (fun s =>
    match s with
    | .inlineFragment cond selSet =>
      if selSet.selections.any isTypenameFieldSel then s
      else .inlineFragment cond
        (.mk (.field (.mk TYPENAME_FIELD_NAME none none) :: selSet.selections))
    | _ => s)

/- The mutually recursive render family of lib.ts.  Each function threads the
render context's `inputTypesToRender` queue (`q`) and takes a fuel parameter,
decremented on every call, standing in for the non-structural TypeScript
recursion through the type registry. -/
mutual

/-- `#internalRenderSingleType(type, sel, path)`: dispatch a named type
reference (with an optional field/inline-fragment selection) on its
registered definition kind. -/
def internalRenderSingleType (b : Builder) (vars : VarMap) (fuel : Nat)
    (namedTypeName : String) (sel : Option SelParam) (path : String)
    (q : List String) : Except RenderError (String × List String) :=
  match fuel with
  | 0 => Except.error .outOfFuel
  | fuel + 1 =>
    match resolveNamed b sel namedTypeName with
    | .done s => Except.ok (s, q)
    | .err e => Except.error e
    | .found namedTypeDef =>
      match namedTypeDef with
      | .scalarDef _ =>
        match getOptSelSet sel with
        | some ss => renderInvalidObjectResult b vars fuel namedTypeName ss path q
        | none =>
          Except.ok ((jsGet b.scalars namedTypeName).getD
            ("/* can't find scalar=" ++ namedTypeName ++ " */ any"), q)
      | .inputObjectDef _ fields =>
        match sel with
        | some _ => Except.error .inputObjectAsSelection
        | none => renderManyInput b vars fuel fields path q
      | .objectDef _ _ =>
        match sel with
        | none => Except.error .objectAsInputType
        | some sp =>
          match sp.getSelectionSet with
          | none => renderInvalidScalarResult b path namedTypeName q
          | some ss => renderMany b vars fuel namedTypeDef ss path q
      | .enumDef _ values =>
        match getOptSelSet sel with
        | some ss => renderInvalidObjectResult b vars fuel namedTypeName ss path q
        | none =>
          if (values.getD []).length == 0 then
            Except.error (.emptyEnum namedTypeName)
          else
            Except.ok (String.intercalate " | "
              ((values.getD []).map (fun v => jsonStringify v.name)), q)
      | .unionDef _ _ =>
        match getOptSelSet sel with
        | none => renderInvalidScalarResult b path namedTypeName q
        | some ss => renderMany b vars fuel namedTypeDef ss path q
      | .interfaceDef _ _ =>
        Except.ok ("/* unsupported kind=" ++ namedTypeDef.kindStr ++ " */ any", q)

/-- The `renderInvalidObject` epilogue of `#internalRenderSingleType`
(selecting a scalar/enum as an object): under the lenient flag the selection
is rendered against an empty object named `""`. -/
def renderInvalidObjectResult (b : Builder) (vars : VarMap) (fuel : Nat)
    (name : String) (ss : SelectionSetNode) (path : String) (q : List String) :
    Except RenderError (String × List String) :=
  match fuel with
  | 0 => Except.error .outOfFuel
  | fuel + 1 =>
    if !b.options.allowInvalidShape then
      Except.error (.invalidObjectShape path name)
    else do
      let (inner, q') ← renderMany b vars fuel (.objectDef "" none) ss path q
      Except.ok ("/* invalid shape, should be scalar=" ++ name ++ " */ " ++ inner, q')

/-- `renderSingleType(type, sel, path)`: nullability/list inversion around a
named-type resolution; with no selection, a registered input-object named
type is deferred onto the pending queue and referenced by name. -/
def renderSingleType (b : Builder) (vars : VarMap) (fuel : Nat)
    (type : Option TypeNode) (sel : Option FieldNode) (path : String)
    (q : List String) : Except RenderError (String × List String) :=
  match fuel with
  | 0 => Except.error .outOfFuel
  | fuel + 1 =>
    match type with
    | none =>
      if (match sel with
          | some f => f.name == TYPENAME_FIELD_NAME
          | none => false) then
        Except.ok ("string", q)
      else if b.options.allowMissingFields then
        Except.ok ("/* can't find path=" ++ path ++ " */ unknown", q)
      else Except.error (.missingField path)
    | some t =>
      let nullable := !t.isNonNull
      let innerType := unwrapNonNullType t
      let render := fun (x : String) => if nullable then x ++ " | null" else x
      match innerType with
      | .list ofType => do
        let (inner, q') ← renderSingleType b vars fuel (some ofType) sel (path ++ "[]") q
        Except.ok (render ("Array<" ++ inner ++ ">"), q')
      | .named nm =>
        if sel.isNone && (match jsGet b.allTypes nm with
            | some d => d.isInputObjectDef
            | none => false) then
          Except.ok (render nm, q ++ [nm])
        else do
          let (inner, q') ← internalRenderSingleType b vars fuel nm
            (sel.map SelParam.fieldSel) path q
          Except.ok (render inner, q')

/-- `#renderSingleInputName(type, path)`: one `name?: T;` line for an input
field or variable; optional iff nullable or carrying a default. -/
def renderSingleInputName (b : Builder) (vars : VarMap) (fuel : Nat)
    (iv : InputValueLike) (path : String) (q : List String) :
    Except RenderError (String × List String) :=
  match fuel with
  | 0 => Except.error .outOfFuel
  | fuel + 1 => do
    let nullable := !iv.type.isNonNull
    let name := iv.entryName
    let (o, q') ← renderSingleType b vars fuel (some iv.type) none
      (path ++ "." ++ name) q
    let optional := nullable || iv.defaultValue.isSome
    Except.ok (name ++ (if optional then "?" else "") ++ ": " ++ o ++ ";", q')

/-- The `map` over input fields/variable definitions calling
`#renderSingleInputName`, with the queue threaded left to right. -/
def renderInputNameList (b : Builder) (vars : VarMap) (fuel : Nat)
    (items : List InputValueLike) (path : String) (q : List String) :
    Except RenderError (List String × List String) :=
  match fuel with
  | 0 => Except.error .outOfFuel
  | fuel + 1 =>
    match items with
    | [] => Except.ok ([], q)
    | iv :: rest => do
      let (line, q') ← renderSingleInputName b vars fuel iv path q
      let (lines, q'') ← renderInputNameList b vars fuel rest path q'
      Except.ok (line :: lines, q'')

/-- `renderManyInput(type, path)`. -/
def renderManyInput (b : Builder) (vars : VarMap) (fuel : Nat)
    (fields : Option (List InputValueDefinitionNode)) (path : String)
    (q : List String) : Except RenderError (String × List String) :=
  match fuel with
  | 0 => Except.error .outOfFuel
  | fuel + 1 => do
    let (lines, q') ← renderInputNameList b vars fuel
      ((fields.getD []).map InputValueLike.inputValue) path q
    Except.ok (wrap lines, q')

/-- `renderMany(type, set, path)`: resolve a selection set against an
object/union target and combine plain-field lines with inline-fragment
branches. -/
def renderMany (b : Builder) (vars : VarMap) (fuel : Nat)
    (target : TypeDefinitionNode) (set : SelectionSetNode) (path : String)
    (q : List String) : Except RenderError (String × List String) :=
  match fuel with
  | 0 => Except.error .outOfFuel
  | fuel + 1 => do
    let selections :=
      if b.options.fixedTypenameField then
        maybeCopyTypenameToInlineFragments set.selections
      else set.selections
    let (pair, q') ← renderSelections b vars fuel target selections path q
    let lines := pair.1.filter (fun x => x != "")
    let commentValue := target.name
    let lines :=
      if !(["Query", "Mutation", "Subscription"].contains commentValue) then
        ("// " ++ commentValue) :: lines
      else lines
    let w := wrap lines
    if pair.2.length != 0 then
      Except.ok ("(" ++ w ++ " & (" ++ String.intercalate " | " pair.2 ++ "))", q')
    else Except.ok (w, q')

/-- The `selections.map(...)` body of `renderMany`: produce the per-selection
lines (an inline fragment contributes an empty line, filtered later) and the
collected fragment parts. -/
def renderSelections (b : Builder) (vars : VarMap) (fuel : Nat)
    (target : TypeDefinitionNode) (sels : List SelectionNode) (path : String)
    (q : List String) :
    Except RenderError ((List String × List String) × List String) :=
  match fuel with
  | 0 => Except.error .outOfFuel
  | fuel + 1 =>
    match sels with
    | [] => Except.ok (([], []), q)
    | sel :: rest =>
      match sel with
      | .field f => do
        let (line, q') ← renderFieldSel b vars fuel target f path q
        let (pair, q'') ← renderSelections b vars fuel target rest path q'
        Except.ok ((line :: pair.1, pair.2), q'')
      | .inlineFragment cond ss => do
        let (t, q') ← internalRenderSingleType b vars fuel cond
          (some (.fragSel cond ss)) (path ++ "." ++ cond) q
        let (pair, q'') ← renderSelections b vars fuel target rest path q'
        Except.ok (("" :: pair.1, t :: pair.2), q'')
      | .fragmentSpread _ => Except.error (.onlyPlainFields "FragmentSpread")

/-- The `case graphql.Kind.FIELD` branch of `renderMany`: a plain field
against a union target resolves through every member, a plain field against
any other target resolves its declared type (with the `__typename`
literal-name shortcut). -/
def renderFieldSel (b : Builder) (vars : VarMap) (fuel : Nat)
    (target : TypeDefinitionNode) (f : FieldNode) (path : String)
    (q : List String) : Except RenderError (String × List String) :=
  match fuel with
  | 0 => Except.error .outOfFuel
  | fuel + 1 =>
    let name := f.name
    match target with
    | .unionDef _ types => do
      let (possibleUnionOptions, q') ← renderUnionOptions b vars fuel f
        (types.getD []) path q
      match possibleUnionOptions with
      | [] => Except.ok (name ++ ": undefined;", q')
      | check :: rest => do
        let line ← unionCheckLine b.options.allowUnknownTypes name check rest
        Except.ok (line, q')
    | _ => do
      let field := ((target.fieldsOf).getD []).find? (fun x => x.name == f.name)
      checkFieldArguments b vars (field.bind (fun fd => fd.arguments))
        f.arguments path
      if b.options.fixedTypenameField && field.isNone
          && f.name == TYPENAME_FIELD_NAME then
        Except.ok (name ++ ": " ++ jsonStringify target.name ++ ";", q)
      else do
        let (t, q') ← renderSingleType b vars fuel
          (field.map (fun fd => fd.type)) (some f) (path ++ "." ++ name) q
        Except.ok (name ++ ": " ++ t ++ ";", q')

/-- The per-member arrow of the union branch: look the member up (reading
`.kind` of an unregistered member is a JS `TypeError`), require an Object
kind, then resolve the common field against the member. -/
def renderUnionOption (b : Builder) (vars : VarMap) (fuel : Nat)
    (f : FieldNode) (memberName : String) (path : String) (q : List String) :
    Except RenderError (String × List String) :=
  match fuel with
  | 0 => Except.error .outOfFuel
  | fuel + 1 =>
    match jsGet b.allTypes memberName with
    | none => Except.error (.jsTypeError "kind")
    | some namedTypeDef =>
      match namedTypeDef with
      | .objectDef _ fields => do
        let field := (fields.getD []).find? (fun x => x.name == f.name)
        checkFieldArguments b vars (field.bind (fun fd => fd.arguments))
          f.arguments path
        renderSingleType b vars fuel (field.map (fun fd => fd.type)) (some f)
          (path ++ "." ++ f.name) q
      | _ => Except.error (.invalidUnionMember namedTypeDef.kindStr)

/-- The `types.map(...)` of the union branch, with the queue threaded. -/
def renderUnionOptions (b : Builder) (vars : VarMap) (fuel : Nat)
    (f : FieldNode) (members : List String) (path : String) (q : List String) :
    Except RenderError (List String × List String) :=
  match fuel with
  | 0 => Except.error .outOfFuel
  | fuel + 1 =>
    match members with
    | [] => Except.ok ([], q)
    | m :: rest => do
      let (o, q') ← renderUnionOption b vars fuel f m path q
      let (os, q'') ← renderUnionOptions b vars fuel f rest path q'
      Except.ok (o :: os, q'')

end

/-- `getBaseFor(op)`: the root type of an operation kind.  A missing
"Query"/"Mutation" registration yields a synthetic empty object definition;
any other operation kind throws. -/
def getBaseFor (b : Builder) (op : OperationTypeNode) :
    Except RenderError TypeDefinitionNode :=
  match op with
  | .subscription => Except.error (.unsupportedOperation "subscription")
  | _ =>
    let key := match op with | .query => "Query" | _ => "Mutation"
    match jsGet b.allTypes key with
    | none => Except.ok (.objectDef key none)
    | some x =>
      if x.isObjectDef then Except.ok x
      else Except.error (.unexpectedRootKind key x.kindStr)

/-- The `#context` attached to a `Builder` instance during a render call. -/
structure RenderContext where
  varTable : VarMap
  inputTypesToRender : List String

/-- The `{ code, deps }` result of `renderOp`/`renderDepTypes`. -/
structure RenderOut where
  code : String
  deps : List String

/-- `renderOp(op)`: emit the normalized-source constant, the result type and
the variables type of one named operation.  `preContext` is the instance's
`#context` before the call (`none` in any reachable state); `printedOp`
stands for the external `graphql.print(op)` serialization.  The second
component of the result is the instance's `#context` after the call: the
`try`/`finally` clears it on success and on failure, while the two throws
before the `try` (unnamed operation, root lookup) leave it untouched. -/
def renderOp (b : Builder) (preContext : Option RenderContext) (fuel : Nat)
    (op : OperationDefinitionNode) (printedOp : String) :
    Except RenderError RenderOut × Option RenderContext :=
  match op.name with
  | none => (Except.error (.unnamedOperation op.operation.kindStr), preContext)
  | some opName =>
    match getBaseFor b op.operation with
    | .error e => (Except.error e, preContext)
    | .ok base =>
      let varName := lowerFirst opName
      let originalOpSource := collapseWs printedOp
      let part0 := "export const " ++ varName ++ " = "
        ++ jsonStringify originalOpSource ++ ";"
      let varTable := jsFromEntries
        ((op.variableDefinitions.getD []).map (fun v => (v.varName, v)))
      let body : Except RenderError RenderOut := do
        let (returnTypeSource, q1) ← renderMany b varTable fuel base
          op.selectionSet opName []
        let (variableParts, q2) ← renderInputNameList b varTable fuel
          ((op.variableDefinitions.getD []).map InputValueLike.variableDef)
          opName q1
        let parts := [part0, "",
          "export type " ++ opName ++ base.name ++ " = " ++ returnTypeSource,
          "",
          "export type " ++ opName ++ base.name ++ "Variables = "
            ++ wrap variableParts ++ ";"]
        Except.ok { code := join parts "", deps := q2 }
      (body, none)

/-- The worklist loop of `renderDepTypes`: pop a pending name, skip it when
already seen, otherwise mark it seen, look it up (it must be a registered
input object), render its declaration and continue — `renderManyInput` may
push further names onto the queue. -/
def renderDepLoop (b : Builder) (fuel : Nat) (queue : List String)
    (seenInputTypes : List String) (parts : List String) :
    Except RenderError (List String × List String) :=
  match fuel with
  | 0 => Except.error .outOfFuel
  | fuel + 1 =>
    match queue with
    | [] => Except.ok (parts, seenInputTypes)
    | next :: queueRest =>
      if seenInputTypes.contains next then
        renderDepLoop b fuel queueRest seenInputTypes parts
      else
        let seenInputTypes := seenInputTypes ++ [next]
        match jsGet b.allTypes next with
        | none => Except.error (.unknownInputType next)
        | some t =>
          match t with
          | .inputObjectDef _ fields => do
            let (inner, queue') ← renderManyInput b [] fuel fields "" queueRest
            let exportKeyword :=
              if b.options.exportInputTypes then "export " else ""
            renderDepLoop b fuel queue' seenInputTypes
              (parts ++ [exportKeyword ++ "type " ++ next ++ " = " ++ inner ++ ";", ""])
          | _ => Except.error (.nonInputObjectDep next)

/-- `renderDepTypes(names)`: the de-duplicated closure over named input
types.  As in `renderOp`, the second component is the instance's `#context`
after the call, cleared by the `finally` on every path. -/
def renderDepTypes (b : Builder) (preContext : Option RenderContext)
    (fuel : Nat) (names : List String) :
    Except RenderError RenderOut × Option RenderContext :=
  let body : Except RenderError RenderOut := do
    let (parts, seenInputTypes) ← renderDepLoop b fuel names [] []
    let parts := parts.dropLast
    Except.ok { code := join parts "", deps := seenInputTypes }
  (body, none)

/- Concrete model fixtures used by the claim theorems, witnesses and
counterexamples below. -/

/-- A plain field selection `f` with no arguments and no nested set. -/
def fieldF : FieldNode := .mk "f" none none

/-- The `__typename` pseudo-field selection. -/
def typenameF : FieldNode := .mk TYPENAME_FIELD_NAME none none

/-- A builder in strict-arguments mode (`allowAdditionalArguments: false`). -/
def strictArgsBuilder : Builder :=
  { emptyBuilder with options :=
    { defaultOptions with allowAdditionalArguments := false } }

/-- A required (NonNull, no default) declared parameter named `a`. -/
def reqA : InputValueDefinitionNode :=
  { name := "a", type := .nonNull (.named "Int"), defaultValue := none }

/-- `enum Color { A B C }`. -/
def colorEnum : TypeDefinitionNode :=
  .enumDef "Color" (some [{ name := "A" }, { name := "B" }, { name := "C" }])

/-- A builder registering only `Color`. -/
def enumBuilder : Builder :=
  { emptyBuilder with allTypes := [("Color", colorEnum)] }

/-- `input Pair { x: Int! y: Pair }` — a self-referential input type. -/
def pairDef : TypeDefinitionNode :=
  .inputObjectDef "Pair" (some
    [{ name := "x", type := .nonNull (.named "Int"), defaultValue := none },
     { name := "y", type := .plain (.named "Pair"), defaultValue := none }])

/-- A builder registering only `Pair`. -/
def pairBuilder : Builder :=
  { emptyBuilder with allTypes := [("Pair", pairDef)] }

/-- `type A { f: String }`. -/
def objA : TypeDefinitionNode := .objectDef "A" (some
  [{ name := "f", arguments := none, type := .plain (.named "String") }])

/-- `type B { f: Int }`. -/
def objB : TypeDefinitionNode := .objectDef "B" (some
  [{ name := "f", arguments := none, type := .plain (.named "Int") }])

/-- `union U = A | B`. -/
def unionU : TypeDefinitionNode := .unionDef "U" (some ["A", "B"])

/-- A builder registering `A`, `B` and `U`. -/
def unionBuilder : Builder :=
  { emptyBuilder with allTypes := [("A", objA), ("B", objB), ("U", unionU)] }

/-- `unionBuilder` in strict mode (`allowUnknownTypes: false`). -/
def unionBuilderStrict : Builder :=
  { unionBuilder with options :=
    { defaultOptions with allowUnknownTypes := false } }

/-- A builder registering an enum and `union V = Color` (an invalid union). -/
def badUnionBuilder : Builder :=
  { emptyBuilder with allTypes :=
    [("Color", colorEnum), ("V", .unionDef "V" (some ["Color"]))] }

/-- `$v: Int` — a nullable variable. -/
def varNullable : VariableDefinitionNode :=
  { varName := "v", type := .plain (.named "Int"), defaultValue := none }

/-- `$w: Int!` — a required variable. -/
def varRequired : VariableDefinitionNode :=
  { varName := "w", type := .nonNull (.named "Int"), defaultValue := none }

/-- `$u: Int! = 1` — a NonNull variable with a default. -/
def varDefaulted : VariableDefinitionNode :=
  { varName := "u", type := .nonNull (.named "Int"), defaultValue := some (.intValue "1") }

/-- `query GetFoo { }` with no variables. -/
def emptyOp : OperationDefinitionNode :=
  { operation := .query, name := some "GetFoo",
    variableDefinitions := none, selectionSet := .mk [] }

/- Helper lemmas shared by the claim proofs. -/

/-- Dropping a NonNull wrapper: the bare (nullable) rendering of an inner
node is exactly the NonNull rendering with `" | null"` appended to the
result expression — the suffix is attached at the outermost layer of the
step and nowhere else. -/
theorem renderSingleType_plain_eq (b : Builder) (vars : VarMap) (fuel : Nat)
    (i : InnerTypeNode) (sel : Option FieldNode) (path : String)
    (q : List String) :
    renderSingleType b vars fuel (some (.plain i)) sel path q
      = (renderSingleType b vars fuel (some (.nonNull i)) sel path q).map
          (fun r => (r.1 ++ " | null", r.2)) := by
  cases fuel with
  | zero => simp [renderSingleType, Except.map]
  | succ fuel =>
    simp only [renderSingleType, TypeNode.isNonNull, unwrapNonNullType]
    cases i with
    | list ofType =>
      simp only []
      cases h : renderSingleType b vars fuel (some ofType) sel (path ++ "[]") q with
      | ok r => simp [h, Except.map, bind, Except.bind]
      | error e => simp [h, Except.map, bind, Except.bind]
    | named nm =>
      by_cases hc : (sel.isNone && (match jsGet b.allTypes nm with
          | some d => d.isInputObjectDef
          | none => false)) = true
      · simp [hc, Except.map]
      · simp only [Bool.not_eq_true] at hc
        simp only [hc]
        cases h : internalRenderSingleType b vars fuel nm (sel.map SelParam.fieldSel) path q with
        | ok r => simp [h, Except.map, bind, Except.bind]
        | error e => simp [h, Except.map, bind, Except.bind]

/-- A NonNull list layer wraps the element rendering in `Array<...>` and
attaches no null union of its own. -/
theorem renderSingleType_nonNull_list (b : Builder) (vars : VarMap)
    (fuel : Nat) (t : TypeNode) (sel : Option FieldNode) (path : String)
    (q : List String) :
    renderSingleType b vars (fuel + 1) (some (.nonNull (.list t))) sel path q
      = (renderSingleType b vars fuel (some t) sel (path ++ "[]") q).map
          (fun r => ("Array<" ++ r.1 ++ ">", r.2)) := by
  simp only [renderSingleType, TypeNode.isNonNull, unwrapNonNullType]
  cases h : renderSingleType b vars fuel (some t) sel (path ++ "[]") q with
  | ok r => simp [h, Except.map, bind, Except.bind]
  | error e => simp [h, Except.map, bind, Except.bind]


/-- C5: given that the consumption loop over the provided arguments
succeeded with working set `rem`, the remaining declared parameters that have
neither a default value nor a nullable type are the missing ones; the check
fails with the missing-arguments error listing exactly their names when any
remain and missing arguments are not tolerated, and succeeds otherwise. -/
theorem claim_C5 (b : Builder) (vars : VarMap)
    (req : Option (List InputValueDefinitionNode))
    (args : Option (List ArgumentNode)) (path : String)
    (rem : List (String × InputValueDefinitionNode))
    (h : consumeArgs b vars
        (jsFromEntries ((req.getD []).map (fun arg => (arg.name, arg))))
        (args.getD []) path = Except.ok rem) :
    checkFieldArguments b vars req args path =
      (let missing := (rem.filter
          (fun p => p.2.defaultValue.isNone && p.2.type.isNonNull)).map Prod.fst
       if missing.length != 0 && !b.options.allowMissingArguments then
         Except.error (.missingArguments path missing)
       else Except.ok ()) := by
  simp only [checkFieldArguments, h, bind, Except.bind]
  rfl

theorem claim_C5_witness :
    checkFieldArguments emptyBuilder [] (some [reqA]) (some []) "p"
      = Except.error (.missingArguments "p" ["a"])
    ∧ checkFieldArguments emptyBuilder [] (some [reqA])
        (some [{ name := "a", value := .intValue "3" }]) "p" = Except.ok () := by
  constructor
  · exact (claim_C5 emptyBuilder [] (some [reqA]) (some []) "p" [("a", reqA)] rfl).trans rfl
  · exact (claim_C5 emptyBuilder [] (some [reqA])
      (some [{ name := "a", value := .intValue "3" }]) "p" [] rfl).trans rfl

/-- C6: resolving a named type registered as an enum with no nested
selection fails with the empty-enum error when the enum declares no values,
and otherwise renders the `' | '`-joined quoted value names in declaration
order. -/
theorem claim_C6 (b : Builder) (vars : VarMap) (fuel : Nat)
    (name ename : String) (values : Option (List EnumValueDefinitionNode))
    (sel : Option SelParam) (path : String) (q : List String)
    (hlook : jsGet b.allTypes name = some (.enumDef ename values))
    (hsel : getOptSelSet sel = none) :
    internalRenderSingleType b vars (fuel + 1) name sel path q
      = if (values.getD []).length == 0 then Except.error (.emptyEnum name)
        else Except.ok (String.intercalate " | "
          ((values.getD []).map (fun v => jsonStringify v.name)), q) := by
  simp only [internalRenderSingleType, resolveNamed, hlook, hsel]

theorem claim_C6_witness :
    internalRenderSingleType enumBuilder [] 10 "Color" (some (.fieldSel fieldF)) "p" []
      = Except.ok ("\"A\" | \"B\" | \"C\"", [])
    ∧ internalRenderSingleType { emptyBuilder with allTypes := [("E", .enumDef "E" none)] }
        [] 10 "E" (some (.fieldSel fieldF)) "p" []
      = Except.error (.emptyEnum "E") := by
  constructor
  · exact (claim_C6 enumBuilder [] 9 "Color" "Color"
      (some [{ name := "A" }, { name := "B" }, { name := "C" }])
      (some (.fieldSel fieldF)) "p" [] rfl rfl).trans rfl
  · exact (claim_C6 { emptyBuilder with allTypes := [("E", .enumDef "E" none)] }
      [] 9 "E" "E" none (some (.fieldSel fieldF)) "p" [] rfl rfl).trans rfl


/-- The optionality test of `#renderSingleInputName`: nullable or defaulted. -/
def inputOptional (iv : InputValueLike) : Bool :=
  !iv.type.isNonNull || iv.defaultValue.isSome

theorem renderSingleInputName_ok_shape (b : Builder) (vars : VarMap) :
    ∀ (fuel : Nat) (iv : InputValueLike) (path : String) (q : List String)
      (line : String) (q1 : List String),
    renderSingleInputName b vars fuel iv path q = Except.ok (line, q1) →
    ∃ o, line = iv.entryName ++ (if inputOptional iv then "?" else "")
      ++ ": " ++ o ++ ";" := by
  intro fuel iv path q line q1 h
  cases fuel with
  | zero => simp [renderSingleInputName] at h
  | succ fuel =>
    simp only [renderSingleInputName] at h
    cases hr : renderSingleType b vars fuel (some iv.type) none
        (path ++ "." ++ iv.entryName) q with
    | error e => rw [hr] at h; simp [bind, Except.bind] at h
    | ok r =>
      rw [hr] at h
      simp only [bind, Except.bind, Except.ok.injEq, Prod.mk.injEq] at h
      exact ⟨r.1, by rw [← h.1]; rfl⟩

theorem renderInputNameList_vars_forall (b : Builder) (vars : VarMap)
    (path : String) :
    ∀ (vs : List VariableDefinitionNode) (fuel : Nat) (q ls q2 : List String),
    renderInputNameList b vars fuel (vs.map InputValueLike.variableDef) path q
      = Except.ok (ls, q2) →
    List.Forall₂ (fun (v : VariableDefinitionNode) (l : String) => ∃ o,
      l = v.varName
        ++ (if !v.type.isNonNull || v.defaultValue.isSome then "?" else "")
        ++ ": " ++ o ++ ";") vs ls := by
  intro vs
  induction vs with
  | nil =>
    intro fuel q ls q2 h
    cases fuel with
    | zero => simp [renderInputNameList] at h
    | succ fuel =>
      simp only [List.map, renderInputNameList, Except.ok.injEq, Prod.mk.injEq] at h
      rw [← h.1]
      exact List.Forall₂.nil
  | cons v rest ih =>
    intro fuel q ls q2 h
    cases fuel with
    | zero => simp [renderInputNameList] at h
    | succ fuel =>
      simp only [List.map, renderInputNameList] at h
      cases hline : renderSingleInputName b vars fuel (.variableDef v) path q with
      | error e => rw [hline] at h; simp [bind, Except.bind] at h
      | ok r =>
        rw [hline] at h
        simp only [bind, Except.bind] at h
        cases hrest : renderInputNameList b vars fuel
            (rest.map InputValueLike.variableDef) path r.2 with
        | error e => rw [hrest] at h; simp at h
        | ok r2 =>
          rw [hrest] at h
          simp only [Except.ok.injEq, Prod.mk.injEq] at h
          have hshape := renderSingleInputName_ok_shape b vars fuel
            (.variableDef v) path q r.1 r.2 (hline.trans rfl)
          rw [← h.1]
          exact List.Forall₂.cons hshape (ih fuel r.2 r2.1 r2.2 (hrest.trans rfl))

/-- C7: whenever `renderOp` succeeds, its variables declaration wraps one
rendered line per declared variable, in order (`Forall₂`), and each line is
the variable's name, a `?` exactly when the declared type is nullable or a
default value is present, and the rendered type expression. -/
theorem claim_C7
    (b : Builder) (pre : Option RenderContext) (fuel : Nat)
    (op : OperationDefinitionNode) (printed : String) (out : RenderOut)
    (c : Option RenderContext) (opName : String)
    (hname : op.name = some opName)
    (h : renderOp b pre fuel op printed = (Except.ok out, c)) :
    ∃ base rts q1 vparts q2,
      getBaseFor b op.operation = Except.ok base
      ∧ renderMany b (jsFromEntries ((op.variableDefinitions.getD []).map
          (fun v => (v.varName, v)))) fuel base op.selectionSet opName []
        = Except.ok (rts, q1)
      ∧ renderInputNameList b (jsFromEntries ((op.variableDefinitions.getD []).map
          (fun v => (v.varName, v)))) fuel
          ((op.variableDefinitions.getD []).map InputValueLike.variableDef)
          opName q1
        = Except.ok (vparts, q2)
      ∧ List.Forall₂ (fun (v : VariableDefinitionNode) (l : String) => ∃ o,
          l = v.varName
            ++ (if !v.type.isNonNull || v.defaultValue.isSome then "?" else "")
            ++ ": " ++ o ++ ";") (op.variableDefinitions.getD []) vparts
      ∧ out.code = join
          ["export const " ++ lowerFirst opName ++ " = "
             ++ jsonStringify (collapseWs printed) ++ ";", "",
           "export type " ++ opName ++ base.name ++ " = " ++ rts, "",
           "export type " ++ opName ++ base.name ++ "Variables = "
             ++ wrap vparts ++ ";"] ""
      ∧ out.deps = q2 := by
  unfold renderOp at h
  rw [hname] at h
  cases hbase : getBaseFor b op.operation with
  | error e => rw [hbase] at h; simp at h
  | ok base =>
    rw [hbase] at h
    simp only [] at h
    cases hrm : renderMany b (jsFromEntries ((op.variableDefinitions.getD []).map
        (fun v => (v.varName, v)))) fuel base op.selectionSet opName [] with
    | error e => rw [hrm] at h; simp [bind, Except.bind] at h
    | ok r1 =>
      rw [hrm] at h
      simp only [bind, Except.bind] at h
      cases hrl : renderInputNameList b (jsFromEntries ((op.variableDefinitions.getD []).map
          (fun v => (v.varName, v)))) fuel
          ((op.variableDefinitions.getD []).map InputValueLike.variableDef)
          opName r1.2 with
      | error e => rw [hrl] at h; simp at h
      | ok r2 =>
        rw [hrl] at h
        simp only [Prod.mk.injEq, Except.ok.injEq] at h
        refine ⟨base, r1.1, r1.2, r2.1, r2.2, rfl, by rw [hrm], by rw [hrl], ?_, ?_, ?_⟩
        · exact renderInputNameList_vars_forall b _ opName _ fuel r1.2 r2.1 r2.2 (by rw [hrl])
        · rw [← h.1]
        · rw [← h.1]

def op7 : OperationDefinitionNode :=
  { operation := .query, name := some "GetFoo",
    variableDefinitions := some [varNullable, varRequired, varDefaulted],
    selectionSet := .mk [] }

def out7 : RenderOut :=
  { code := "export const getFoo = \"query GetFoo\";\n\nexport type GetFooQuery = \x7b\n\x7d\n\nexport type GetFooQueryVariables = \x7b\n  v?: number | null;\n  w: number;\n  u?: number;\n\x7d;\n\n",
    deps := [] }

theorem claim_C7_witness :
    ∃ base rts q1 vparts q2,
      getBaseFor emptyBuilder op7.operation = Except.ok base
      ∧ renderMany emptyBuilder (jsFromEntries ((op7.variableDefinitions.getD []).map
          (fun v => (v.varName, v)))) 20 base op7.selectionSet "GetFoo" []
        = Except.ok (rts, q1)
      ∧ renderInputNameList emptyBuilder (jsFromEntries ((op7.variableDefinitions.getD []).map
          (fun v => (v.varName, v)))) 20
          ((op7.variableDefinitions.getD []).map InputValueLike.variableDef)
          "GetFoo" q1
        = Except.ok (vparts, q2)
      ∧ List.Forall₂ (fun (v : VariableDefinitionNode) (l : String) => ∃ o,
          l = v.varName
            ++ (if !v.type.isNonNull || v.defaultValue.isSome then "?" else "")
            ++ ": " ++ o ++ ";") (op7.variableDefinitions.getD []) vparts
      ∧ out7.code = join
          ["export const " ++ lowerFirst "GetFoo" ++ " = "
             ++ jsonStringify (collapseWs "query GetFoo") ++ ";", "",
           "export type " ++ "GetFoo" ++ base.name ++ " = " ++ rts, "",
           "export type " ++ "GetFoo" ++ base.name ++ "Variables = "
             ++ wrap vparts ++ ";"] ""
      ∧ out7.deps = q2 := by
  have h := claim_C7 emptyBuilder none 20 op7 "query GetFoo" out7 none "GetFoo" rfl rfl
  exact h

/- Claim theorems. -/

/-- C1 (counterexample): the claim's literal rendering `'(Array<T>) | null'`
for a nullable `List(NonNull(T))` field does not match the code: at
`T = String` the emitted expression is `"Array<string> | null"`, without
parentheses around the array. -/
theorem claim_C1_counterexample :
    renderSingleType emptyBuilder [] 10
        (some (.plain (.list (.nonNull (.named "String"))))) (some fieldF) "p" []
      = Except.ok ("Array<string> | null", [])
    ∧ "Array<string> | null" ≠ "(Array<string>) | null" := by
  exact ⟨rfl, by decide⟩

/-- C1 (amended): a NonNull-wrapped layer adds no null union of its own and a
nullable layer appends exactly one `" | null"` at the outermost position of
that step's result, the two wrappings composing orthogonally — but the
nullable `List(NonNull(T))` example renders as `Array<T> | null`, with no
parentheses around the array (the NonNull `List(T)` example renders as
`Array<T | null>` as claimed). -/
theorem claim_C1 :
    (∀ (b : Builder) (vars : VarMap) (fuel : Nat) (i : InnerTypeNode)
        (sel : Option FieldNode) (path : String) (q : List String),
      renderSingleType b vars fuel (some (.plain i)) sel path q
        = (renderSingleType b vars fuel (some (.nonNull i)) sel path q).map
            (fun r => (r.1 ++ " | null", r.2)))
    ∧ (∀ (b : Builder) (vars : VarMap) (fuel : Nat) (t : TypeNode)
        (sel : Option FieldNode) (path : String) (q : List String),
      renderSingleType b vars (fuel + 1) (some (.nonNull (.list t))) sel path q
        = (renderSingleType b vars fuel (some t) sel (path ++ "[]") q).map
            (fun r => ("Array<" ++ r.1 ++ ">", r.2)))
    ∧ renderSingleType emptyBuilder [] 10
        (some (.plain (.list (.nonNull (.named "String"))))) (some fieldF) "p" []
      = Except.ok ("Array<string> | null", [])
    ∧ renderSingleType emptyBuilder [] 10
        (some (.nonNull (.list (.plain (.named "String"))))) (some fieldF) "p" []
      = Except.ok ("Array<string | null>", []) :=
  ⟨renderSingleType_plain_eq, renderSingleType_nonNull_list, rfl, rfl⟩

/-- C3 (code bug): under the default `allowAdditionalArguments: true`, an
argument whose name is not among the declared parameters is not ignored —
the loop has no `continue` and falls through to `this.#checkTypeCompat(req.type, ...)`
with `req === undefined`, a JavaScript `TypeError` — while the strict mode
(`allowAdditionalArguments: false`) fails with the intended
unexpected-argument error. -/
theorem claim_C3_bug :
    checkFieldArguments emptyBuilder [] (some [])
        (some [{ name := "extra", value := .stringValue "v" }]) "p"
      = Except.error (.jsTypeError "type")
    ∧ emptyBuilder.options.allowAdditionalArguments = true
    ∧ checkFieldArguments strictArgsBuilder [] (some [])
        (some [{ name := "extra", value := .stringValue "v" }]) "p"
      = Except.error (.unexpectedArgument "p" "extra") :=
  ⟨rfl, rfl, rfl⟩

/-- C8: the root lookup maps a query to the type named `Query` and a
mutation to `Mutation`, substitutes a synthetic empty object definition when
the name is unregistered, and fails with the unsupported-operation error for
every other operation kind. -/
theorem claim_C8 (b : Builder) :
    (jsGet b.allTypes "Query" = none →
      getBaseFor b .query = Except.ok (.objectDef "Query" none))
    ∧ (jsGet b.allTypes "Mutation" = none →
      getBaseFor b .mutation = Except.ok (.objectDef "Mutation" none))
    ∧ (∀ d, jsGet b.allTypes "Query" = some d → d.isObjectDef = true →
      getBaseFor b .query = Except.ok d)
    ∧ (∀ d, jsGet b.allTypes "Mutation" = some d → d.isObjectDef = true →
      getBaseFor b .mutation = Except.ok d)
    ∧ getBaseFor b .subscription
      = Except.error (.unsupportedOperation "subscription") := by
  refine ⟨fun h => ?_, fun h => ?_, fun d h hobj => ?_, fun d h hobj => ?_, rfl⟩
  all_goals simp [getBaseFor, h]
  all_goals simp [hobj]

/-- C8 witness at concrete inputs: an empty registry and a registry holding
`type Query`. -/
theorem claim_C8_witness :
    getBaseFor emptyBuilder .query = Except.ok (.objectDef "Query" none)
    ∧ getBaseFor { emptyBuilder with allTypes := [("Query", .objectDef "Query" none)] } .query
      = Except.ok (.objectDef "Query" none)
    ∧ getBaseFor emptyBuilder .subscription
      = Except.error (.unsupportedOperation "subscription") :=
  ⟨(claim_C8 emptyBuilder).1 rfl,
   (claim_C8 { emptyBuilder with allTypes := [("Query", .objectDef "Query" none)] }).2.2.1
     (.objectDef "Query" none) rfl rfl,
   (claim_C8 emptyBuilder).2.2.2.2⟩

/-- C9: both `renderOp` and `renderDepTypes` leave the instance's render
context cleared (`none`) when control returns, whether the body succeeded or
threw — the `try`/`finally` guarantees release, and the two throws preceding
the `try` in `renderOp` never see a non-`none` context in a reachable state. -/
theorem claim_C9 (b : Builder) (pre : Option RenderContext) (fuel : Nat)
    (op : OperationDefinitionNode) (printedOp : String) (names : List String)
    (h : pre = none) :
    (renderOp b pre fuel op printedOp).2 = none
    ∧ (renderDepTypes b pre fuel names).2 = none := by
  subst h
  constructor
  · unfold renderOp
    cases op.name with
    | none => rfl
    | some opName =>
      cases getBaseFor b op.operation with
      | ok base => rfl
      | error e => rfl
  · rfl

/-- C9 witness: a concrete render call ends with the context cleared. -/
theorem claim_C9_witness :
    (renderOp pairBuilder none 20 emptyOp "query GetFoo").2 = none
    ∧ (renderDepTypes pairBuilder none 20 ["Pair"]).2 = none :=
  claim_C9 pairBuilder none 20 emptyOp "query GetFoo" ["Pair"] rfl

theorem renderUnionOption_nonObject (b : Builder) (vars : VarMap) (fuel : Nat)
    (f : FieldNode) (m : String) (path : String) (q : List String)
    (d : TypeDefinitionNode)
    (hlook : jsGet b.allTypes m = some d) (hno : d.isObjectDef = false) :
    renderUnionOption b vars (fuel + 1) f m path q
      = Except.error (.invalidUnionMember d.kindStr) := by
  simp only [renderUnionOption, hlook]
  cases d <;> first | rfl | simp [TypeDefinitionNode.isObjectDef] at hno

theorem renderUnionOption_nonObject_never_ok (b : Builder) (vars : VarMap)
    (f : FieldNode) (m : String) (path : String) (d : TypeDefinitionNode)
    (hlook : jsGet b.allTypes m = some d) (hno : d.isObjectDef = false) :
    ∀ (fuel : Nat) (q : List String) (r : String × List String),
    renderUnionOption b vars fuel f m path q ≠ Except.ok r := by
  intro fuel q r
  cases fuel with
  | zero => simp [renderUnionOption]
  | succ fuel => rw [renderUnionOption_nonObject b vars fuel f m path q d hlook hno]; simp

theorem renderUnionOptions_nonObject_fail (b : Builder) (vars : VarMap)
    (f : FieldNode) (path : String) (m : String) (d : TypeDefinitionNode)
    (hlook : jsGet b.allTypes m = some d) (hno : d.isObjectDef = false) :
    ∀ (members : List String), m ∈ members →
    ∀ (fuel : Nat) (q : List String) (r : List String × List String),
    renderUnionOptions b vars fuel f members path q ≠ Except.ok r := by
  intro members
  induction members with
  | nil => intro hm; cases hm
  | cons m2 rest ih =>
    intro hm fuel q r
    cases fuel with
    | zero => simp [renderUnionOptions]
    | succ fuel =>
      simp only [renderUnionOptions]
      cases h1 : renderUnionOption b vars fuel f m2 path q with
      | error e => simp [bind, Except.bind]
      | ok r1 =>
        rcases List.mem_cons.mp hm with heq | hmem
        · subst heq
          exact absurd h1 (renderUnionOption_nonObject_never_ok b vars f m path d hlook hno fuel q r1)
        · simp only [bind, Except.bind]
          cases h2 : renderUnionOptions b vars fuel f rest path r1.2 with
          | error e => simp
          | ok r2 => exact absurd h2 (ih hmem fuel r1.2 r2)

theorem renderFieldSel_union_options (b : Builder) (vars : VarMap)
    (fuel : Nat) (n : String) (types : Option (List String)) (f : FieldNode)
    (path : String) (q : List String) (opts q2 : List String)
    (h : renderUnionOptions b vars fuel f (types.getD []) path q
      = Except.ok (opts, q2)) :
    renderFieldSel b vars (fuel + 1) (.unionDef n types) f path q =
      match opts with
      | [] => Except.ok (f.name ++ ": undefined;", q2)
      | check :: rest =>
        (unionCheckLine b.options.allowUnknownTypes f.name check rest).map
          (fun l => (l, q2)) := by
  simp only [renderFieldSel, h, bind, Except.bind]
  cases opts with
  | nil => rfl
  | cons check rest =>
    cases hl : unionCheckLine b.options.allowUnknownTypes f.name check rest with
    | error e => simp [hl, Except.map]
    | ok l => simp [hl, Except.map]

theorem unionCheckLine_all_eq (a : Bool) (name check : String) :
    ∀ (rest : List String), (∀ o ∈ rest, o = check) →
    unionCheckLine a name check rest = Except.ok (name ++ ": " ++ check ++ ";") := by
  intro rest
  induction rest with
  | nil => intro _; rfl
  | cons o rest ih =>
    intro hall
    have ho : o = check := hall o (List.mem_cons_self o rest)
    subst ho
    simp only [unionCheckLine, bne_self_eq_false]
    exact ih (fun x hx => hall x (List.mem_cons_of_mem o hx))

theorem unionCheckLine_mismatch (name check : String) :
    ∀ (pre : List String) (o : String) (rest : List String),
    (∀ x ∈ pre, x = check) → o ≠ check →
    unionCheckLine false name check (pre ++ o :: rest)
        = Except.error (.disjointUnion check o)
    ∧ unionCheckLine true name check (pre ++ o :: rest)
        = Except.ok (name ++ ": /* inconsistent subtypes from union */ any;") := by
  intro pre
  induction pre with
  | nil =>
    intro o rest _ hne
    have hb : (o != check) = true := bne_iff_ne.mpr hne
    constructor <;> simp [unionCheckLine, hb]
  | cons x pre ih =>
    intro o rest hall hne
    have hx : x = check := hall x (List.mem_cons_self x pre)
    subst hx
    simp only [List.cons_append, unionCheckLine, bne_self_eq_false]
    exact ih o rest (fun y hy => hall y (List.mem_cons_of_mem x hy)) hne

/-- C4: a plain-field selection against a union target resolves the field
independently against every member; if all member results are string-equal
the common line is emitted; at the first mismatch the selection fails with
the disjoint-union error under `allowUnknownTypes: false` and degrades to the
inline `any` marker line otherwise; and a member registered with a non-Object
kind makes the member map fail unconditionally — when reached it raises
exactly the invalid-union-member error, and no option setting lets the
selection succeed. -/
theorem claim_C4 :
    (∀ (b : Builder) (vars : VarMap) (fuel : Nat) (f : FieldNode)
        (m path : String) (q : List String) (d : TypeDefinitionNode),
      jsGet b.allTypes m = some d → d.isObjectDef = false →
      renderUnionOption b vars (fuel + 1) f m path q
        = Except.error (.invalidUnionMember d.kindStr))
    ∧ (∀ (b : Builder) (vars : VarMap) (f : FieldNode) (m path : String)
        (d : TypeDefinitionNode) (members : List String),
      jsGet b.allTypes m = some d → d.isObjectDef = false → m ∈ members →
      ∀ (fuel : Nat) (q : List String) (r : List String × List String),
      renderUnionOptions b vars fuel f members path q ≠ Except.ok r)
    ∧ (∀ (b : Builder) (vars : VarMap) (fuel : Nat) (n : String)
        (types : Option (List String)) (f : FieldNode) (path : String)
        (q q2 : List String) (checkv : String) (rest : List String),
      renderUnionOptions b vars fuel f (types.getD []) path q
        = Except.ok (checkv :: rest, q2) →
      (∀ o ∈ rest, o = checkv) →
      renderFieldSel b vars (fuel + 1) (.unionDef n types) f path q
        = Except.ok (f.name ++ ": " ++ checkv ++ ";", q2))
    ∧ (∀ (b : Builder) (vars : VarMap) (fuel : Nat) (n : String)
        (types : Option (List String)) (f : FieldNode) (path : String)
        (q q2 : List String) (checkv : String) (pre : List String)
        (o : String) (rest : List String),
      renderUnionOptions b vars fuel f (types.getD []) path q
        = Except.ok (checkv :: (pre ++ o :: rest), q2) →
      (∀ x ∈ pre, x = checkv) → o ≠ checkv →
      (b.options.allowUnknownTypes = false →
        renderFieldSel b vars (fuel + 1) (.unionDef n types) f path q
          = Except.error (.disjointUnion checkv o))
      ∧ (b.options.allowUnknownTypes = true →
        renderFieldSel b vars (fuel + 1) (.unionDef n types) f path q
          = Except.ok (f.name ++ ": /* inconsistent subtypes from union */ any;", q2)))
    ∧ renderFieldSel unionBuilder [] 10 unionU fieldF "p" []
      = Except.ok ("f: /* inconsistent subtypes from union */ any;", [])
    ∧ renderFieldSel unionBuilderStrict [] 10 unionU fieldF "p" []
      = Except.error (.disjointUnion "string | null" "number | null")
    ∧ renderFieldSel badUnionBuilder [] 10 (.unionDef "V" (some ["Color"])) fieldF "p" []
      = Except.error (.invalidUnionMember "EnumTypeDefinition") := by
  refine ⟨renderUnionOption_nonObject, ?_, ?_, ?_, rfl, rfl, rfl⟩
  · intro b vars f m path d members hlook hno hm fuel q r
    exact renderUnionOptions_nonObject_fail b vars f path m d hlook hno members hm fuel q r
  · intro b vars fuel n types f path q q2 checkv rest h hall
    rw [renderFieldSel_union_options b vars fuel n types f path q (checkv :: rest) q2 h]
    simp only [unionCheckLine_all_eq b.options.allowUnknownTypes f.name checkv rest hall, Except.map]
  · intro b vars fuel n types f path q q2 checkv pre o rest h hall hne
    have hm := unionCheckLine_mismatch f.name checkv pre o rest hall hne
    constructor
    · intro hopt
      rw [renderFieldSel_union_options b vars fuel n types f path q _ q2 h]
      simp only [hopt, hm.1, Except.map]
    · intro hopt
      rw [renderFieldSel_union_options b vars fuel n types f path q _ q2 h]
      simp only [hopt, hm.2, Except.map]

/-- C4 witness: the two-member union `U = A | B` with `f: String` vs
`f: Int` and the invalid union `V = Color`, at concrete inputs. -/
theorem claim_C4_witness :
    renderUnionOption badUnionBuilder [] 10 fieldF "Color" "p" []
      = Except.error (.invalidUnionMember "EnumTypeDefinition")
    ∧ renderFieldSel unionBuilder [] 10 unionU fieldF "p" []
      = Except.ok ("f: /* inconsistent subtypes from union */ any;", [])
    ∧ renderFieldSel unionBuilderStrict [] 10 unionU fieldF "p" []
      = Except.error (.disjointUnion "string | null" "number | null") := by
  refine ⟨?_, ?_, ?_⟩
  · exact claim_C4.1 badUnionBuilder [] 9 fieldF "Color" "p" [] colorEnum rfl rfl
  · exact ((claim_C4.2.2.2.1 unionBuilder [] 9 "U" (some ["A", "B"]) fieldF "p"
      [] [] "string | null" [] "number | null" [] rfl (by intro x hx; cases hx)
      (by decide)).2 rfl).trans rfl
  · exact ((claim_C4.2.2.2.1 unionBuilderStrict [] 9 "U" (some ["A", "B"]) fieldF "p"
      [] [] "string | null" [] "number | null" [] rfl (by intro x hx; cases hx)
      (by decide)).1 rfl).trans rfl

theorem checkFieldArguments_none_none (b : Builder) (vars : VarMap)
    (path : String) : checkFieldArguments b vars none none path = Except.ok () :=
  rfl

theorem renderUnionOption_typename (b : Builder) (vars : VarMap) (fuel : Nat)
    (f : FieldNode) (m path : String) (q : List String) (n : String)
    (fields : Option (List FieldDefinitionNode))
    (hlook : jsGet b.allTypes m = some (.objectDef n fields))
    (hfind : (fields.getD []).find? (fun x => x.name == f.name) = none)
    (hname : f.name = TYPENAME_FIELD_NAME)
    (hargs : f.arguments = none) :
    renderUnionOption b vars (fuel + 2) f m path q = Except.ok ("string", q) := by
  simp only [renderUnionOption, hlook, hfind, hargs, Option.bind,
    checkFieldArguments_none_none, bind, Except.bind, Option.map]
  simp only [renderSingleType, hname, TYPENAME_FIELD_NAME, beq_self_eq_true]
  rfl

theorem unionCheckLine_replicate (a : Bool) (name c : String) (k : Nat) :
    unionCheckLine a name c (List.replicate k c)
      = Except.ok (name ++ ": " ++ c ++ ";") :=
  unionCheckLine_all_eq a name c (List.replicate k c)
    (fun _ ho => List.eq_of_mem_replicate ho)

theorem renderUnionOptions_typename (b : Builder) (vars : VarMap)
    (f : FieldNode) (path : String)
    (hname : f.name = TYPENAME_FIELD_NAME) (hargs : f.arguments = none) :
    ∀ (members : List String) (fuel : Nat) (q : List String),
    (∀ m ∈ members, ∃ n fields,
      jsGet b.allTypes m = some (.objectDef n fields)
      ∧ (fields.getD []).find? (fun x => x.name == f.name) = none) →
    members.length + 2 ≤ fuel →
    renderUnionOptions b vars fuel f members path q
      = Except.ok (List.replicate members.length "string", q) := by
  intro members
  induction members with
  | nil =>
    intro fuel q _ hfuel
    match fuel, hfuel with
    | fuel + 2, _ => rfl
  | cons m rest ih =>
    intro fuel q hall hfuel
    simp only [List.length_cons] at hfuel
    cases fuel with
    | zero => exact absurd hfuel (by omega)
    | succ fuel =>
      obtain ⟨n, fields, hlook, hfind⟩ := hall m (List.mem_cons_self m rest)
      have hopt : renderUnionOption b vars fuel f m path q = Except.ok ("string", q) := by
        have heq : fuel = (fuel - 2) + 2 := by omega
        rw [heq]
        exact renderUnionOption_typename b vars (fuel - 2) f m path q n fields
          hlook hfind hname hargs
      simp only [renderUnionOptions, hopt, bind, Except.bind]
      have hrest : renderUnionOptions b vars fuel f rest path q
          = Except.ok (List.replicate rest.length "string", q) := by
        refine ih fuel q (fun x hx => hall x (List.mem_cons_of_mem m hx)) ?_
        omega
      rw [hrest]
      simp [List.replicate_succ]

theorem renderFieldSel_union_typename (b : Builder) (vars : VarMap)
    (fuel : Nat) (n : String) (types : Option (List String)) (f : FieldNode)
    (path : String) (q : List String)
    (hname : f.name = TYPENAME_FIELD_NAME) (hargs : f.arguments = none)
    (hne : types.getD [] ≠ [])
    (hall : ∀ m ∈ types.getD [], ∃ n2 fields,
      jsGet b.allTypes m = some (.objectDef n2 fields)
      ∧ (fields.getD []).find? (fun x => x.name == f.name) = none)
    (hfuel : (types.getD []).length + 2 ≤ fuel) :
    renderFieldSel b vars (fuel + 1) (.unionDef n types) f path q
      = Except.ok (f.name ++ ": " ++ "string" ++ ";", q) := by
  have hopts := renderUnionOptions_typename b vars f path hname hargs
    (types.getD []) fuel q hall hfuel
  rcases hlist : types.getD [] with _ | ⟨m0, ms⟩
  · exact absurd hlist hne
  · have hopts2 : renderUnionOptions b vars fuel f (types.getD []) path q
        = Except.ok ("string" :: List.replicate ms.length "string", q) := by
      rw [hopts, hlist]
      simp [List.replicate_succ]
    rw [renderFieldSel_union_options b vars fuel n types f path q
      ("string" :: List.replicate ms.length "string") q hopts2]
    simp only [unionCheckLine_replicate, Except.map]

theorem renderFieldSel_object_typename (b : Builder) (vars : VarMap)
    (fuel : Nat) (n : String) (fields : Option (List FieldDefinitionNode))
    (f : FieldNode) (path : String) (q : List String)
    (hfind : (fields.getD []).find? (fun x => x.name == f.name) = none)
    (hfixed : b.options.fixedTypenameField = true)
    (hname : f.name = TYPENAME_FIELD_NAME) (hargs : f.arguments = none) :
    renderFieldSel b vars (fuel + 1) (.objectDef n fields) f path q
      = Except.ok (f.name ++ ": " ++ jsonStringify n ++ ";", q) := by
  have hf2 : (fields.getD []).find? (fun x => x.name == "__typename") = none := by
    simpa [hname, TYPENAME_FIELD_NAME] using hfind
  simp only [renderFieldSel, TypeDefinitionNode.fieldsOf, hname,
    TYPENAME_FIELD_NAME, hargs]
  simp only [hf2, hfixed]
  rfl

/-- C10: selecting `__typename` against a union target whose member object
types do not declare such a field renders every member result as the plain
`string` type, so the member results are identical and the union consistency
check can never fire, and the emitted line is `__typename: string;` — unlike
a non-union object target, which receives the literal type-name string
constant under the `fixedTypenameField` default. -/
theorem claim_C10 :
    (∀ (b : Builder) (vars : VarMap) (fuel : Nat) (f : FieldNode)
        (m path : String) (q : List String) (n : String)
        (fields : Option (List FieldDefinitionNode)),
      jsGet b.allTypes m = some (.objectDef n fields) →
      (fields.getD []).find? (fun x => x.name == f.name) = none →
      f.name = TYPENAME_FIELD_NAME → f.arguments = none →
      renderUnionOption b vars (fuel + 2) f m path q = Except.ok ("string", q))
    ∧ (∀ (b : Builder) (vars : VarMap) (fuel : Nat) (n : String)
        (types : Option (List String)) (f : FieldNode) (path : String)
        (q : List String),
      f.name = TYPENAME_FIELD_NAME → f.arguments = none →
      types.getD [] ≠ [] →
      (∀ m ∈ types.getD [], ∃ n2 fields,
        jsGet b.allTypes m = some (.objectDef n2 fields)
        ∧ (fields.getD []).find? (fun x => x.name == f.name) = none) →
      (types.getD []).length + 2 ≤ fuel →
      renderFieldSel b vars (fuel + 1) (.unionDef n types) f path q
        = Except.ok (f.name ++ ": " ++ "string" ++ ";", q))
    ∧ (∀ (b : Builder) (vars : VarMap) (fuel : Nat) (n : String)
        (fields : Option (List FieldDefinitionNode)) (f : FieldNode)
        (path : String) (q : List String),
      (fields.getD []).find? (fun x => x.name == f.name) = none →
      b.options.fixedTypenameField = true →
      f.name = TYPENAME_FIELD_NAME → f.arguments = none →
      renderFieldSel b vars (fuel + 1) (.objectDef n fields) f path q
        = Except.ok (f.name ++ ": " ++ jsonStringify n ++ ";", q))
    ∧ renderFieldSel unionBuilder [] 10 unionU typenameF "p" []
      = Except.ok ("__typename: string;", [])
    ∧ renderFieldSel unionBuilder [] 10 objA typenameF "p" []
      = Except.ok ("__typename: \"A\";", [])
    ∧ ("string" : String) ≠ "\"A\"" := by
  refine ⟨renderUnionOption_typename, ?_, renderFieldSel_object_typename,
    rfl, rfl, by decide⟩
  intro b vars fuel n types f path q hname hargs hne hall hfuel
  exact renderFieldSel_union_typename b vars fuel n types f path q
    hname hargs hne hall hfuel

/-- C10 witness: the `U = A | B` union and the object `A`, selecting
`__typename` at concrete inputs. -/
theorem claim_C10_witness :
    renderUnionOption unionBuilder [] 6 typenameF "A" "p" []
      = Except.ok ("string", [])
    ∧ renderFieldSel unionBuilder [] 5 unionU typenameF "p" []
      = Except.ok ("__typename: string;", [])
    ∧ renderFieldSel unionBuilder [] 5 objA typenameF "p" []
      = Except.ok ("__typename: \"A\";", []) := by
  refine ⟨?_, ?_, ?_⟩
  · exact claim_C10.1 unionBuilder [] 4 typenameF "A" "p" [] "A"
      (some [{ name := "f", arguments := none, type := .plain (.named "String") }])
      rfl rfl rfl rfl
  · exact (claim_C10.2.1 unionBuilder [] 4 "U" (some ["A", "B"]) typenameF "p" []
      rfl rfl (by decide)
      (by
        intro m hm
        rcases List.mem_cons.mp hm with heq | hm2
        · subst heq
          exact ⟨"A", some [{ name := "f", arguments := none, type := .plain (.named "String") }],
            rfl, rfl⟩
        · rcases List.mem_cons.mp hm2 with heq | hm3
          · subst heq
            exact ⟨"B", some [{ name := "f", arguments := none, type := .plain (.named "Int") }],
              rfl, rfl⟩
          · exact absurd hm3 (List.not_mem_nil m))
      (by decide)).trans rfl
  · exact (claim_C10.2.2.1 unionBuilder [] 4 "A"
      (some [{ name := "f", arguments := none, type := .plain (.named "String") }])
      typenameF "p" [] rfl rfl rfl rfl).trans rfl

/-- Queue extension for the input-position (no-selection) render fragment:
every successful call only appends to the pending input-type queue. -/
theorem queueExtension (fuel : Nat) :
    (∀ (b : Builder) (vars : VarMap) (t : Option TypeNode) (path : String)
       (q : List String) (r : String × List String),
      renderSingleType b vars fuel t none path q = Except.ok r →
      ∃ e, r.2 = q ++ e)
    ∧ (∀ (b : Builder) (vars : VarMap) (nm path : String) (q : List String)
       (r : String × List String),
      internalRenderSingleType b vars fuel nm none path q = Except.ok r →
      ∃ e, r.2 = q ++ e)
    ∧ (∀ (b : Builder) (vars : VarMap) (iv : InputValueLike) (path : String)
       (q : List String) (r : String × List String),
      renderSingleInputName b vars fuel iv path q = Except.ok r →
      ∃ e, r.2 = q ++ e)
    ∧ (∀ (b : Builder) (vars : VarMap) (items : List InputValueLike)
       (path : String) (q : List String) (r : List String × List String),
      renderInputNameList b vars fuel items path q = Except.ok r →
      ∃ e, r.2 = q ++ e)
    ∧ (∀ (b : Builder) (vars : VarMap)
       (fields : Option (List InputValueDefinitionNode)) (path : String)
       (q : List String) (r : String × List String),
      renderManyInput b vars fuel fields path q = Except.ok r →
      ∃ e, r.2 = q ++ e) := by
  induction fuel with
  | zero =>
    refine ⟨?_, ?_, ?_, ?_, ?_⟩ <;>
      intro b vars x path q r h <;> simp [renderSingleType,
        internalRenderSingleType, renderSingleInputName, renderInputNameList,
        renderManyInput] at h
  | succ fuel ih =>
    obtain ⟨ihST, ihIT, ihSI, ihIL, ihMI⟩ := ih
    refine ⟨?_, ?_, ?_, ?_, ?_⟩
    · -- renderSingleType
      intro b vars t path q r h
      cases t with
      | none =>
        simp only [renderSingleType] at h
        split at h
        · exact ⟨[], by cases h; simp⟩
        · split at h
          · exact ⟨[], by cases h; simp⟩
          · cases h
      | some t =>
        cases t with
        | plain i =>
          cases i with
          | named nm =>
            simp only [renderSingleType, unwrapNonNullType, TypeNode.isNonNull] at h
            split at h
            · cases h; exact ⟨[nm], rfl⟩
            · simp only [Option.map_none'] at h
              cases hin : internalRenderSingleType b vars fuel nm none path q with
              | error e => rw [hin] at h; simp [bind, Except.bind] at h
              | ok r2 =>
                rw [hin] at h
                simp only [bind, Except.bind] at h
                obtain ⟨e, he⟩ := ihIT b vars nm path q r2 hin
                cases h
                exact ⟨e, he⟩
          | list ofType =>
            simp only [renderSingleType, unwrapNonNullType, TypeNode.isNonNull] at h
            cases hin : renderSingleType b vars fuel (some ofType) none (path ++ "[]") q with
            | error e => rw [hin] at h; simp [bind, Except.bind] at h
            | ok r2 =>
              rw [hin] at h
              simp only [bind, Except.bind] at h
              obtain ⟨e, he⟩ := ihST b vars (some ofType) (path ++ "[]") q r2 hin
              cases h
              exact ⟨e, he⟩
        | nonNull i =>
          cases i with
          | named nm =>
            simp only [renderSingleType, unwrapNonNullType, TypeNode.isNonNull] at h
            split at h
            · cases h; exact ⟨[nm], rfl⟩
            · simp only [Option.map_none'] at h
              cases hin : internalRenderSingleType b vars fuel nm none path q with
              | error e => rw [hin] at h; simp [bind, Except.bind] at h
              | ok r2 =>
                rw [hin] at h
                simp only [bind, Except.bind] at h
                obtain ⟨e, he⟩ := ihIT b vars nm path q r2 hin
                cases h
                exact ⟨e, he⟩
          | list ofType =>
            simp only [renderSingleType, unwrapNonNullType, TypeNode.isNonNull] at h
            cases hin : renderSingleType b vars fuel (some ofType) none (path ++ "[]") q with
            | error e => rw [hin] at h; simp [bind, Except.bind] at h
            | ok r2 =>
              rw [hin] at h
              simp only [bind, Except.bind] at h
              obtain ⟨e, he⟩ := ihST b vars (some ofType) (path ++ "[]") q r2 hin
              cases h
              exact ⟨e, he⟩
    · -- internalRenderSingleType
      intro b vars nm path q r h
      simp only [internalRenderSingleType] at h
      cases hres : resolveNamed b none nm with
      | done s => rw [hres] at h; cases h; exact ⟨[], by simp⟩
      | err e => rw [hres] at h; cases h
      | found d =>
        rw [hres] at h
        cases d with
        | scalarDef n =>
          simp only [getOptSelSet, Option.bind] at h
          cases h; exact ⟨[], by simp⟩
        | inputObjectDef n fields => exact ihMI b vars fields path q r h
        | objectDef n fields => cases h
        | enumDef n values =>
          simp only [getOptSelSet, Option.bind] at h
          split at h
          · cases h
          · cases h; exact ⟨[], by simp⟩
        | unionDef n types =>
          simp only [getOptSelSet, Option.bind, renderInvalidScalarResult] at h
          split at h
          · cases h
          · cases h; exact ⟨[], by simp⟩
        | interfaceDef n fields => cases h; exact ⟨[], by simp⟩
    · -- renderSingleInputName
      intro b vars iv path q r h
      simp only [renderSingleInputName] at h
      cases hin : renderSingleType b vars fuel (some iv.type) none
          (path ++ "." ++ iv.entryName) q with
      | error e => rw [hin] at h; simp [bind, Except.bind] at h
      | ok r2 =>
        rw [hin] at h
        simp only [bind, Except.bind] at h
        obtain ⟨e, he⟩ := ihST b vars (some iv.type) (path ++ "." ++ iv.entryName) q r2 hin
        cases h
        exact ⟨e, he⟩
    · -- renderInputNameList
      intro b vars items path q r h
      cases items with
      | nil =>
        simp only [renderInputNameList] at h
        cases h; exact ⟨[], by simp⟩
      | cons iv rest =>
        simp only [renderInputNameList] at h
        cases h1 : renderSingleInputName b vars fuel iv path q with
        | error e => rw [h1] at h; simp [bind, Except.bind] at h
        | ok r1 =>
          rw [h1] at h
          simp only [bind, Except.bind] at h
          cases h2 : renderInputNameList b vars fuel rest path r1.2 with
          | error e => rw [h2] at h; simp at h
          | ok r2 =>
            rw [h2] at h
            obtain ⟨e1, he1⟩ := ihSI b vars iv path q r1 h1
            obtain ⟨e2, he2⟩ := ihIL b vars rest path r1.2 r2 h2
            cases h
            exact ⟨e1 ++ e2, by rw [he2, he1, List.append_assoc]⟩
    · -- renderManyInput
      intro b vars fields path q r h
      simp only [renderManyInput] at h
      cases h1 : renderInputNameList b vars fuel
          ((fields.getD []).map InputValueLike.inputValue) path q with
      | error e => rw [h1] at h; simp [bind, Except.bind] at h
      | ok r1 =>
        rw [h1] at h
        simp only [bind, Except.bind] at h
        obtain ⟨e, he⟩ := ihIL b vars ((fields.getD []).map InputValueLike.inputValue) path q r1 h1
        cases h
        exact ⟨e, he⟩

/-- One emitted declaration block: the `type <name> = <body>;` line followed
by a blank separator line, as `renderDepTypes` pushes them. -/
def depDeclBlock (exportInputTypes : Bool) (d : String × String) : List String :=
  [(if exportInputTypes then "export " else "")
    ++ "type " ++ d.1 ++ " = " ++ d.2 ++ ";", ""]

/-- The worklist invariant of `renderDepTypes`: on success the seen list only
grows, every queued name ends up seen, seen names stay duplicate-free, and
the emitted parts extend by exactly one declaration block per newly seen
name, in first-seen order. -/
theorem renderDepLoop_invariant (b : Builder) :
    ∀ (fuel : Nat) (queue seen parts parts2 seen2 : List String),
    renderDepLoop b fuel queue seen parts = Except.ok (parts2, seen2) →
    (∃ tail, seen2 = seen ++ tail)
    ∧ (∀ x ∈ queue, x ∈ seen2)
    ∧ (seen.Nodup → seen2.Nodup)
    ∧ (∃ ds : List (String × String),
        ds.map Prod.fst = seen2.drop seen.length
        ∧ parts2 = parts ++ ds.bind (depDeclBlock b.options.exportInputTypes)) := by
  intro fuel
  induction fuel with
  | zero =>
    intro queue seen parts parts2 seen2 h
    simp [renderDepLoop] at h
  | succ fuel ih =>
    intro queue seen parts parts2 seen2 h
    cases queue with
    | nil =>
      simp only [renderDepLoop] at h
      cases h
      exact ⟨⟨[], by simp⟩, by simp, fun hn => hn,
        ⟨[], by simp [List.drop_length], by simp⟩⟩
    | cons next rest =>
      simp only [renderDepLoop] at h
      by_cases hc : (seen.contains next) = true
      · rw [if_pos hc] at h
        obtain ⟨⟨tail, htail⟩, hqueue, hnodup, ⟨ds, hds1, hds2⟩⟩ :=
          ih rest seen parts parts2 seen2 h
        have hmem : next ∈ seen := List.elem_iff.mp hc
        refine ⟨⟨tail, htail⟩, ?_, hnodup, ⟨ds, hds1, hds2⟩⟩
        intro x hx
        rcases List.mem_cons.mp hx with heq | hx2
        · subst heq; rw [htail]; exact List.mem_append_left tail hmem
        · exact hqueue x hx2
      · rw [if_neg hc] at h
        have hnm : next ∉ seen := fun hin => hc (List.elem_iff.mpr hin)
        split at h
        · cases h
        · split at h
          · rename_i t heqlk n fields heqt
            cases hmi : renderManyInput b [] fuel fields "" rest with
            | error e => rw [hmi] at h; simp [bind, Except.bind] at h
            | ok rin =>
              obtain ⟨inner, queue2⟩ := rin
              rw [hmi] at h
              simp only [bind, Except.bind] at h
              obtain ⟨⟨tail, htail⟩, hqueue, hnodup, ⟨ds, hds1, hds2⟩⟩ :=
                ih queue2 (seen ++ [next])
                  (parts ++ [(if b.options.exportInputTypes then "export " else "")
                    ++ "type " ++ next ++ " = " ++ inner ++ ";", ""])
                  parts2 seen2 h
              obtain ⟨e, he⟩ :=
                (queueExtension fuel).2.2.2.2 b [] fields "" rest (inner, queue2) hmi
              have hnextmem : next ∈ seen2 := by
                rw [htail]
                exact List.mem_append_left tail (List.mem_append_right seen (by simp))
              refine ⟨⟨next :: tail, by rw [htail, List.append_assoc]; rfl⟩, ?_, ?_, ?_⟩
              · intro x hx
                rcases List.mem_cons.mp hx with heq | hx2
                · subst heq; exact hnextmem
                · refine hqueue x ?_
                  simp only at he
                  rw [he]
                  exact List.mem_append_left e hx2
              · intro hsn
                refine hnodup ?_
                simp [List.nodup_append, hsn, hnm]
              · refine ⟨(next, inner) :: ds, ?_, ?_⟩
                · have hlen : (seen ++ [next]).length = seen.length + 1 := by simp
                  rw [hlen] at hds1
                  have hdrop : seen2.drop seen.length
                      = next :: (seen2.drop (seen.length + 1)) := by
                    rw [htail, List.append_assoc]
                    rw [List.drop_append_of_le_length (by simp)]
                    simp [List.drop_length]
                  rw [hdrop]
                  simp only [List.map]
                  rw [hds1]
                · rw [hds2]
                  simp [depDeclBlock, List.append_assoc]
          · cases h

theorem renderSingleType_defers_inputObject (b : Builder) (vars : VarMap)
    (fuel : Nat) (nm path : String) (q : List String) (n : String)
    (fields : Option (List InputValueDefinitionNode))
    (hlook : jsGet b.allTypes nm = some (.inputObjectDef n fields)) :
    renderSingleType b vars (fuel + 1) (some (.plain (.named nm))) none path q
      = Except.ok (nm ++ " | null", q ++ [nm])
    ∧ renderSingleType b vars (fuel + 1) (some (.nonNull (.named nm))) none path q
      = Except.ok (nm, q ++ [nm]) := by
  constructor <;>
    simp [renderSingleType, hlook, TypeDefinitionNode.isInputObjectDef,
      unwrapNonNullType, TypeNode.isNonNull]

/-- C2: the closure pass emits exactly one declaration per distinct reachable
input-type name, in first-seen order — on success the returned `deps` list is
duplicate-free, contains every initial name, and the emitted code is the
layout of exactly one declaration block per element of `deps`, in order;
`renderSingleType` defers every registered input-object named type (in input
position) onto the pending queue and emits only its name, which is why a
recursive field references its type by name instead of expanding inline; and
concretely, rendering the self-referential `input Pair { x: Int! y: Pair }`
from the duplicated initial list `["Pair", "Pair"]` emits a single
declaration whose `y` field references `Pair` by name. -/
theorem claim_C2 :
    (∀ (b : Builder) (vars : VarMap) (fuel : Nat) (nm path : String)
        (q : List String) (n : String)
        (fields : Option (List InputValueDefinitionNode)),
      jsGet b.allTypes nm = some (.inputObjectDef n fields) →
      renderSingleType b vars (fuel + 1) (some (.plain (.named nm))) none path q
        = Except.ok (nm ++ " | null", q ++ [nm])
      ∧ renderSingleType b vars (fuel + 1) (some (.nonNull (.named nm))) none path q
        = Except.ok (nm, q ++ [nm]))
    ∧ (∀ (b : Builder) (pre : Option RenderContext) (fuel : Nat)
        (names : List String) (out : RenderOut) (c : Option RenderContext),
      renderDepTypes b pre fuel names = (Except.ok out, c) →
      out.deps.Nodup
      ∧ (∀ x ∈ names, x ∈ out.deps)
      ∧ (∃ ds : List (String × String),
          ds.map Prod.fst = out.deps
          ∧ out.code = join
              ((ds.bind (depDeclBlock b.options.exportInputTypes)).dropLast) ""))
    ∧ (renderDepTypes pairBuilder none 20 ["Pair", "Pair"]).1
      = Except.ok
          { code := "type Pair = \x7b\n  x: number;\n  y?: Pair | null;\n\x7d;\n\n",
            deps := ["Pair"] } := by
  refine ⟨renderSingleType_defers_inputObject, ?_, rfl⟩
  intro b pre fuel names out c h
  unfold renderDepTypes at h
  have hbody :
      (do
        let r ← renderDepLoop b fuel names [] []
        Except.ok { code := join r.1.dropLast "", deps := r.2 } : Except RenderError RenderOut)
      = Except.ok out := by
    exact congrArg Prod.fst h
  cases hloop : renderDepLoop b fuel names [] [] with
  | error e => rw [hloop] at hbody; simp [bind, Except.bind] at hbody
  | ok r =>
    obtain ⟨parts, seen⟩ := r
    rw [hloop] at hbody
    simp only [bind, Except.bind, Except.ok.injEq] at hbody
    obtain ⟨⟨tail, htail⟩, hqueue, hnodup, ⟨ds, hds1, hds2⟩⟩ :=
      renderDepLoop_invariant b fuel names [] [] parts seen hloop
    have hdeps : out.deps = seen := by rw [← hbody]
    have hcode : out.code = join parts.dropLast "" := by rw [← hbody]
    refine ⟨?_, ?_, ⟨ds, ?_, ?_⟩⟩
    · rw [hdeps]; exact hnodup (List.nodup_nil)
    · intro x hx; rw [hdeps]; exact hqueue x hx
    · rw [hdeps, hds1]; simp
    · rw [hcode, hds2]; simp

/-- C2 witness: the deferral equation at the concrete `Pair` registry, and
the closure invariants on the concrete duplicated run. -/
theorem claim_C2_witness :
    (renderSingleType pairBuilder [] 5 (some (.plain (.named "Pair"))) none "p" []
      = Except.ok ("Pair | null", ["Pair"]))
    ∧ (renderDepTypes pairBuilder none 20 ["Pair", "Pair"]).1
        = Except.ok
            { code := "type Pair = \x7b\n  x: number;\n  y?: Pair | null;\n\x7d;\n\n",
              deps := ["Pair"] }
    ∧ (["Pair"] : List String).Nodup
    ∧ (∀ x ∈ (["Pair", "Pair"] : List String), x ∈ (["Pair"] : List String)) := by
  refine ⟨?_, claim_C2.2.2, ?_, ?_⟩
  · exact ((claim_C2.1 pairBuilder [] 4 "Pair" "p" [] "Pair" (some
      [{ name := "x", type := .nonNull (.named "Int"), defaultValue := none },
       { name := "y", type := .plain (.named "Pair"), defaultValue := none }])
      rfl).1).trans rfl
  · have h := claim_C2.2.1 pairBuilder none 20 ["Pair", "Pair"]
      { code := "type Pair = \x7b\n  x: number;\n  y?: Pair | null;\n\x7d;\n\n",
        deps := ["Pair"] } none (by rw [claim_C2.2.2.symm]; rfl)
    exact h.1
  · have h := claim_C2.2.1 pairBuilder none 20 ["Pair", "Pair"]
      { code := "type Pair = \x7b\n  x: number;\n  y?: Pair | null;\n\x7d;\n\n",
        deps := ["Pair"] } none (by rw [claim_C2.2.2.symm]; rfl)
    exact h.2.1

end GQLCodegen
